import Mathlib

/-!
Verification of the `multiverse` terminal client
(`labs/multiverse/src/main.rs`): the selectable room list, the diff-applied
collections, the status-message expiry machinery, the pagination handle, and
the user-triggered operations (`mark_as_read`,
`toggle_reaction_to_latest_msg`, `back_paginate`).

Stateful code is embedded as explicit state passing: each Rust method that
mutates `self` becomes a Lean function from the old state to the new state
(plus its return value); the background tasks (status expiry, pagination)
become small labelled transition systems whose events are the operations of
the source plus the completion/firing of a spawned task.
-/

namespace Multiverse

/-! ## `StatefulList` (main.rs lines 86-90, 917-965)

`state: ListState` carries the optional selected index; `items` is the
shared `Vector<T>` (its lock/`Arc` is irrelevant to the sequential
semantics, so the state is just the selected index and the item list). -/

structure StatefulList (T : Type) where
  selected : Option Nat
  items : List T
deriving Repr, DecidableEq

/-- Embedding of `StatefulList::next` (main.rs 921-940): on an empty list
clear the selection and return `none`; otherwise step forward, wrapping from
the last index to `0`; select and return the new index only when it differs
from the previous selection. -/
def StatefulList.next (l : StatefulList T) : StatefulList T × Option Nat :=
  let num_items := l.items.length
  if num_items = 0 then
    ({ l with selected := none }, none)
  else
    let prev := l.selected
    let new := match prev with
      | none => 0
      | some i => if i ≥ num_items - 1 then 0 else i + 1
    if prev ≠ some new then
      ({ l with selected := some new }, some new)
    else
      (l, none)

/-- Embedding of `StatefulList::previous` (main.rs 945-964): on an empty
list clear the selection and return `none`; otherwise step backward,
wrapping from index `0` to `len - 1`; select and return the new index only
when it differs from the previous selection. -/
def StatefulList.previous (l : StatefulList T) : StatefulList T × Option Nat :=
  let num_items := l.items.length
  if num_items = 0 then
    ({ l with selected := none }, none)
  else
    let prev := l.selected
    let new := match prev with
      | none => 0
      | some i => if i = 0 then num_items - 1 else i - 1
    if prev ≠ some new then
      ({ l with selected := some new }, some new)
    else
      (l, none)

/-- The selection-cursor invariant of the spec: the cursor is `None` on an
empty list, and an in-bounds index otherwise (a `some i` with
`i < length` is impossible on the empty list, so one clause captures both
halves). -/
abbrev StatefulList.invariant (l : StatefulList T) : Prop :=
  match l.selected with
  | none => True
  | some i => i < l.items.length

/-! ## Diff operations of the Diff-Applied Collection

Modelled from the spec: the per-operation semantics of `VectorDiff::apply`
(the `eyeball-im` crate, outside this repository's sources) as listed in
spec §4.1 — append, insert-at, remove-at, replace-at, clear, reset,
move(from,to) — each applied in order to the current sequence. The batch
loop itself (`for diff in diffs { diff.apply(&mut rooms) }`, main.rs
192-194 and 258-260) is code of this repository and is embedded as a left
fold below. -/

inductive DiffOp (T : Type) where
  | append (vs : List T)
  | insertAt (i : Nat) (v : T)
  | removeAt (i : Nat)
  | replaceAt (i : Nat) (v : T)
  | clear
  | reset (vs : List T)
  | move (src dst : Nat)
deriving Repr, DecidableEq

/-- Modelled from the spec: applying a single diff operation to the current
sequence (spec §4.1). -/
def applyDiff (xs : List T) : DiffOp T → List T
  | .append vs => xs ++ vs
  | .insertAt i v => xs.insertIdx i v
  | .removeAt i => xs.eraseIdx i
  | .replaceAt i v => xs.set i v
  | .clear => []
  | .reset vs => vs
  | .move src dst =>
    match xs.get? src with
    | none => xs
    | some v => (xs.eraseIdx src).insertIdx dst v

/-- The diff-batch loop of the listen task and of the per-room feeder tasks
(main.rs 192-194, 258-260): each operation of the batch is applied in
received order to the current sequence. -/
def apply_batch (xs : List T) (diffs : List (DiffOp T)) : List T :=
  diffs.foldl applyDiff xs

/-- Application of a room-list diff batch at the `App` level (main.rs
187-198): the listen task mutates the shared `rooms` vector of the
`StatefulList`, and does not touch the `ListState` selection, which lives
in the render loop's `App`. -/
def applyDiffs (l : StatefulList T) (diffs : List (DiffOp T)) : StatefulList T :=
  { l with items := apply_batch l.items diffs }

/-! ## Status message and its auto-expiry task (main.rs 142-146, 302-317)

`set_status_message` aborts the previously stored clear task (if any),
stores the text, and spawns a task that sleeps 4 seconds and then clears
the message. The task pool is modelled explicitly: `live` is the list of
spawned, not-yet-aborted, not-yet-fired expiry tasks, each with its id and
its wake-up deadline (`now + 4` at spawn time). `clears` counts how many
times an expiry task actually cleared the message. Time advances in unit
ticks; a tick fires every live task whose deadline has been reached. -/

structure StatusState where
  message : Option String
  clearTask : Option Nat
  live : List (Nat × Nat)
  nextId : Nat
  now : Nat
  clears : Nat
deriving Repr, DecidableEq

def statusInit : StatusState :=
  { message := none, clearTask := none, live := [], nextId := 0, now := 0, clears := 0 }

/-- Embedding of `App::set_status_message` (main.rs 302-317): abort the
stored clear task if any (removing it from the live pool; aborting an
already-finished task is a no-op, which the filter models), store the text,
spawn a fresh expiry task with deadline `now + 4` and store its handle. -/
def set_status_message (st : StatusState) (s : String) : StatusState :=
  let live := match st.clearTask with
    | some h => st.live.filter (fun t => t.1 != h)
    | none => st.live
  { message := some s
    clearTask := some st.nextId
    live := live ++ [(st.nextId, st.now + 4)]
    nextId := st.nextId + 1
    now := st.now
    clears := st.clears }

/-- One unit of time passing: every live expiry task whose deadline has
been reached runs its body (`*message.lock().unwrap() = None`, main.rs
315) and leaves the live pool. -/
def statusTick (st : StatusState) : StatusState :=
  let now := st.now + 1
  let due := st.live.filter (fun t => t.2 ≤ now)
  { message := if due.isEmpty then st.message else none
    clearTask := st.clearTask
    live := st.live.filter (fun t => now < t.2)
    nextId := st.nextId
    now := now
    clears := st.clears + due.length }

inductive StatusEv where
  | set (s : String)
  | tick
deriving Repr, DecidableEq

def statusStep (st : StatusState) : StatusEv → StatusState
  | .set s => set_status_message st s
  | .tick => statusTick st

def statusRun (st : StatusState) (evs : List StatusEv) : StatusState :=
  evs.foldl statusStep st

/-- The pending-task invariant of the status machinery: at most one live
expiry task, and any live task is the one whose handle is stored in
`clear_status_message`. -/
def statusInv (st : StatusState) : Prop :=
  st.live.length ≤ 1 ∧ ∀ t ∈ st.live, st.clearTask = some t.1

/-! ## Back-pagination handle (main.rs 154, 380-407)

`back_paginate` resolves the selected room's timeline; if missing it only
sets a status message. Otherwise it aborts the previously stored pagination
task (if any) and spawns a new one that requests a backward page of 20
events and, on failure, only logs. `live` is the pool of spawned,
not-yet-aborted, not-yet-finished pagination tasks; `requests` records each
spawned request with its batch size; `completed` records the tasks that ran
to completion. -/

structure PagState where
  current : Option Nat
  live : List Nat
  requests : List (Nat × Nat)
  completed : List Nat
  logs : List String
  status : Option String
  nextId : Nat
deriving Repr, DecidableEq

def pagInit : PagState :=
  { current := none, live := [], requests := [], completed := [], logs := [],
    status := none, nextId := 0 }

inductive PagEv where
  | paginate (hasTimeline : Bool)
  | complete (id : Nat) (result : Except String Unit)
deriving Repr

/-- Embedding of `App::back_paginate` (main.rs 380-407) together with the
completion of a spawned pagination task (the body of the `spawn` at main.rs
397-406): a missing timeline sets a status message and returns early; a
successful resolution aborts the stored pagination, spawns a task
requesting a batch of 20 events and stores its handle. A task completes
only if it is still live (not aborted); a failing request appends to the
log and — the commented-out code at main.rs 399-403 — leaves the status
message untouched. -/
def pagStep (st : PagState) : PagEv → PagState
  | .paginate false => { st with status := some "missing timeline for room" }
  | .paginate true =>
    let live := match st.current with
      | some h => st.live.filter (fun i => i != h)
      | none => st.live
    { st with
      current := some st.nextId
      live := live ++ [st.nextId]
      requests := st.requests ++ [(st.nextId, 20)]
      nextId := st.nextId + 1 }
  | .complete id r =>
    if id ∈ st.live then
      { st with
        live := st.live.filter (fun i => i != id)
        completed := st.completed ++ [id]
        logs := st.logs ++ (match r with
          | .ok _ => []
          | .error e => ["Error during backpagination: " ++ e]) }
    else st

def pagRun (st : PagState) (evs : List PagEv) : PagState :=
  evs.foldl pagStep st

/-- The in-flight invariant of the pagination machinery: at most one live
pagination task, and any live task is the one whose handle is stored in
`current_pagination`. -/
def pagInv (st : PagState) : Prop :=
  st.live.length ≤ 1 ∧ ∀ i ∈ st.live, st.current = some i

/-! ## `App::mark_as_read` (main.rs 320-341)

The room resolution (`get_selected_room_id` chained with the `ui_rooms`
lookup) is the outer `Option`; the room's `timeline()` is the inner
`Option`, which the code `unwrap`s; the receipt request's result is the
`Except`. -/

inductive MarkResult where
  | statusOnly (msg : String)
  | sentReceipt (msg : String)
  | panicked
deriving Repr, DecidableEq

/-- Embedding of `App::mark_as_read` (main.rs 320-341): if no room
resolves, set a status message and return; otherwise `unwrap` the room's
timeline (a `None` timeline panics) and report the receipt request's
outcome as a status message. `statusOnly`/`sentReceipt` distinguish whether
the read-receipt request was issued. -/
def mark_as_read (room : Option (Option Unit)) (receipt : Except String Bool) :
    MarkResult :=
  match room with
  | none => .statusOnly "missing room or nothing to show"
  | some none => .panicked
  | some (some _) =>
    match receipt with
    | .ok did => .sentReceipt ("did " ++ (if did then "" else "not ") ++ "send a read receipt!")
    | .error e => .sentReceipt ("error when marking a room as read: " ++ e)

/-! ## `App::toggle_reaction_to_latest_msg` (main.rs 343-376)

A timeline item is an event whose content is a message
(`as_event` is `Some` and `content().as_message()` is `Some`), an event of
any other kind, or a virtual item (`as_event` is `None`). `msgId it`
returns the item's identifier exactly when the reverse scan's `find_map`
closure would. -/

inductive TLItem where
  | message (id : Nat)
  | otherEvent (id : Nat)
  | virt
deriving Repr, DecidableEq

/-- The `find_map` closure at main.rs 356-359: an item contributes its
identifier exactly when it is an event whose content is a message. -/
def msgId : TLItem → Option Nat
  | .message id => some id
  | .otherEvent _ => none
  | .virt => none

inductive ToggleResult where
  | reacted (id : Nat) (msg : String)
  | statusOnly (msg : String)
deriving Repr, DecidableEq

/-- Embedding of `App::toggle_reaction_to_latest_msg` (main.rs 343-376):
if the selected room has no timeline entry, report "missing timeline for
room"; otherwise scan the items in reverse for the latest message-type
event; if found, toggle a reaction on it (reporting the backend call's
outcome), else report "no item to react to". The `reacted` constructor is
the only one that issues a backend call. -/
def toggle_reaction_to_latest_msg (timeline : Option (List TLItem))
    (reactResult : Except String Unit) : ToggleResult :=
  match timeline with
  | some items =>
    let item_id := items.reverse.findSome? msgId
    match item_id with
    | some id =>
      match reactResult with
      | .ok _ => .reacted id "reaction sent!"
      | .error err => .reacted id ("error when reacting: " ++ err)
    | none => .statusOnly "no item to react to"
  | none => .statusOnly "missing timeline for room"

/-! ## Reconciliation of one room-list diff batch (main.rs 226-274)

The Timeline Registry (`ui_rooms` / `timelines`) is modelled as a function
from room id to an optional entry. A batch is the `all_rooms` snapshot,
each room paired with the outcome of its timeline initialization (`none`
when `default_room_timeline_builder` or `init_timeline_with_builder`
fails, `some e` for the successfully built entry `e`). Rooms already in
the previous snapshot are filtered out; failures `continue`; the new
entries are inserted into a fresh map (later insertions of the same key
overwrite, as `HashMap::insert` does) which is then merged into the
registry with `extend` (overwriting on key collision, as `HashMap::extend`
does). -/

def newEntriesStep (reg : Nat → Option Nat) (acc : Nat → Option Nat)
    (p : Nat × Option Nat) : Nat → Option Nat :=
  if (reg p.1).isNone then
    match p.2 with
    | some e => fun id => if id = p.1 then some e else acc id
    | none => acc
  else acc

def buildNewEntries (reg : Nat → Option Nat) (batch : List (Nat × Option Nat)) :
    Nat → Option Nat :=
  batch.foldl (newEntriesStep reg) (fun _ => none)

/-- Embedding of the new-room initialization of one batch of the listen
task (main.rs 226-274): filter the snapshot to rooms absent from the
previous registry snapshot, keep the successful initializations, and
`extend` the registry with them. -/
def processBatch (reg : Nat → Option Nat) (batch : List (Nat × Option Nat)) :
    Nat → Option Nat :=
  fun id =>
    match buildNewEntries reg batch id with
    | some e => some e
    | none => reg id

/-! ## Theorems -/

/-- Folding one batch is folding its operations (helper). -/
theorem apply_batch_append (xs : List T) (d1 d2 : List (DiffOp T)) :
    apply_batch xs (d1 ++ d2) = apply_batch (apply_batch xs d1) d2 :=
  List.foldl_append applyDiff xs d1 d2

/-- C7: applying a sequence of diff batches one at a time yields the same
final sequence as applying their concatenation as one batch, because each
operation is applied in received order to the current sequence. -/
theorem apply_batches_concat (T : Type) (init : List T)
    (batches : List (List (DiffOp T))) :
    batches.foldl apply_batch init = apply_batch init batches.flatten := by
  induction batches generalizing init with
  | nil => rfl
  | cons b bs ih =>
    rw [List.foldl_cons, List.flatten_cons, apply_batch_append]
    exact ih (apply_batch init b)

/-- C2: on an N-item list, `next()` from index `N-1` wraps to index 0 and
returns it, and `previous()` from index 0 wraps to index `N-1` and returns
it (both for `N ≥ 2`); on a 1-item list with the item selected, both leave
the selection unchanged and return `none` ("no change"), the carve-out the
claim itself makes for `N = 1`. -/
theorem next_previous_wraparound (T : Type) (items : List T) :
    (2 ≤ items.length →
      StatefulList.next ⟨some (items.length - 1), items⟩ = (⟨some 0, items⟩, some 0)) ∧
    (2 ≤ items.length →
      StatefulList.previous ⟨some 0, items⟩ =
        (⟨some (items.length - 1), items⟩, some (items.length - 1))) ∧
    (items.length = 1 →
      StatefulList.next ⟨some 0, items⟩ = (⟨some 0, items⟩, none) ∧
      StatefulList.previous ⟨some 0, items⟩ = (⟨some 0, items⟩, none)) := by
  refine ⟨fun h => ?_, fun h => ?_, fun h => ⟨?_, ?_⟩⟩
  · simp only [StatefulList.next]
    split_ifs <;> first | rfl | omega | (simp_all <;> omega)
  · simp only [StatefulList.previous]
    split_ifs <;> first | rfl | omega | (simp_all <;> omega)
  · simp only [StatefulList.next]
    split_ifs <;> first | rfl | omega | (simp_all <;> omega)
  · simp only [StatefulList.previous]
    split_ifs <;> first | rfl | omega | (simp_all <;> omega)

/-- C2 witness: the wrap and no-change cases evaluated on concrete lists. -/
theorem next_previous_wraparound_witness :
    StatefulList.next (⟨some 2, [10, 11, 12]⟩ : StatefulList Nat) =
      (⟨some 0, [10, 11, 12]⟩, some 0) ∧
    StatefulList.previous (⟨some 0, [10, 11, 12]⟩ : StatefulList Nat) =
      (⟨some 2, [10, 11, 12]⟩, some 2) ∧
    StatefulList.next (⟨some 0, [10]⟩ : StatefulList Nat) = (⟨some 0, [10]⟩, none) ∧
    StatefulList.previous (⟨some 0, [10]⟩ : StatefulList Nat) = (⟨some 0, [10]⟩, none) :=
  ⟨(next_previous_wraparound Nat [10, 11, 12]).1 (by decide),
   (next_previous_wraparound Nat [10, 11, 12]).2.1 (by decide),
   ((next_previous_wraparound Nat [10]).2.2 (by decide)).1,
   ((next_previous_wraparound Nat [10]).2.2 (by decide)).2⟩

/-- C10: on a non-empty list with no current selection, both `next()` and
`previous()` select index 0 and return `some 0`; in particular `previous()`
does not wrap to `len - 1` from no selection (it returns `some 0`, which
for a list of two or more items is not `some (len - 1)`). -/
theorem next_previous_from_none (T : Type) (items : List T)
    (h : 0 < items.length) :
    StatefulList.next ⟨none, items⟩ = (⟨some 0, items⟩, some 0) ∧
    StatefulList.previous ⟨none, items⟩ = (⟨some 0, items⟩, some 0) := by
  constructor
  · simp only [StatefulList.next]
    split_ifs <;> first | rfl | omega | (simp_all <;> omega)
  · simp only [StatefulList.previous]
    split_ifs <;> first | rfl | omega | (simp_all <;> omega)

/-- C10 witness: evaluated on a concrete three-item list. -/
theorem next_previous_from_none_witness :
    StatefulList.next (⟨none, [10, 11, 12]⟩ : StatefulList Nat) =
      (⟨some 0, [10, 11, 12]⟩, some 0) ∧
    StatefulList.previous (⟨none, [10, 11, 12]⟩ : StatefulList Nat) =
      (⟨some 0, [10, 11, 12]⟩, some 0) :=
  next_previous_from_none Nat [10, 11, 12] (by decide)

/-- C1 counterexample: the claim also asserts the cursor invariant is
preserved by the application of any room-list diff batch; but the listen
task's diff application (main.rs 187-198) leaves the `ListState` cursor
untouched, so a `clear` diff on a one-item list with item 0 selected
leaves the cursor at `some 0` on an empty list, violating the invariant. -/
theorem selection_invariant_clear_counterexample :
    StatefulList.invariant (⟨some 0, [0]⟩ : StatefulList Nat) ∧
    ¬ StatefulList.invariant
        (applyDiffs (⟨some 0, [0]⟩ : StatefulList Nat) [DiffOp.clear]) :=
  ⟨by decide, by simp [applyDiffs, apply_batch, applyDiff, StatefulList.invariant]⟩

/-- C1 (amended): the cursor invariant (`None` on an empty list, in-bounds
otherwise) is preserved by `next()` and `previous()`; the application of a
room-list diff batch, however, leaves the cursor exactly as it was (the
listen task only mutates the item vector), so batches that remove rooms or
clear the list can break the invariant. -/
theorem selection_invariant_after_ops (T : Type) (l : StatefulList T)
    (diffs : List (DiffOp T)) (h : l.invariant) :
    (l.next).1.invariant ∧ (l.previous).1.invariant ∧
      (applyDiffs l diffs).selected = l.selected := by
  refine ⟨?_, ?_, rfl⟩ <;>
    · obtain ⟨sel, items⟩ := l
      cases sel <;>
        · simp only [StatefulList.next, StatefulList.previous,
            StatefulList.invariant] at h ⊢
          split_ifs <;> dsimp only at * <;> first | trivial | omega | simp_all <;> omega

/-- C1 witness: the amended statement evaluated on a concrete list and
batch. -/
theorem selection_invariant_after_ops_witness :
    StatefulList.invariant
        ((StatefulList.next (⟨some 0, [5, 6]⟩ : StatefulList Nat)).1) ∧
    StatefulList.invariant
        ((StatefulList.previous (⟨some 0, [5, 6]⟩ : StatefulList Nat)).1) ∧
    (applyDiffs (⟨some 0, [5, 6]⟩ : StatefulList Nat) [DiffOp.append [7]]).selected =
      (⟨some 0, [5, 6]⟩ : StatefulList Nat).selected :=
  selection_invariant_after_ops Nat ⟨some 0, [5, 6]⟩ [DiffOp.append [7]] (by decide)

/-- Every reachable status state keeps the pending-task invariant
(helper). -/
theorem statusInv_step (st : StatusState) (e : StatusEv) (h : statusInv st) :
    statusInv (statusStep st e) := by
  obtain ⟨hlen, hid⟩ := h
  cases e with
  | set s =>
    have hfilter : (match st.clearTask with
        | some hdl => st.live.filter (fun t => t.1 != hdl)
        | none => st.live) = [] := by
      cases hct : st.clearTask with
      | none =>
        cases hlive : st.live with
        | nil => rfl
        | cons t ts =>
          have := hid t (by rw [hlive]; exact List.mem_cons_self t ts)
          rw [hct] at this
          cases this
      | some hdl =>
        rw [List.filter_eq_nil_iff]
        intro t ht
        have := hid t ht
        rw [hct] at this
        simp_all
    constructor
    · show ((match st.clearTask with
        | some hdl => st.live.filter (fun t => t.1 != hdl)
        | none => st.live) ++ [(st.nextId, st.now + 4)]).length ≤ 1
      rw [hfilter]
      simp
    · show ∀ t ∈ (match st.clearTask with
        | some hdl => st.live.filter (fun t => t.1 != hdl)
        | none => st.live) ++ [(st.nextId, st.now + 4)], some st.nextId = some t.1
      rw [hfilter]
      simp
  | tick =>
    constructor
    · calc (st.live.filter (fun t => st.now + 1 < t.2)).length
          ≤ st.live.length := List.length_filter_le _ _
        _ ≤ 1 := hlen
    · intro t ht
      exact hid t (List.mem_of_mem_filter ht)

/-- Invariant holds along any run from a state satisfying it (helper). -/
theorem statusInv_run (evs : List StatusEv) :
    ∀ st, statusInv st → statusInv (statusRun st evs) := by
  induction evs with
  | nil => exact fun st h => h
  | cons e es ih => exact fun st h => ih _ (statusInv_step st e h)

/-- Runs compose over event-list concatenation (helper). -/
theorem statusRun_append (st : StatusState) (a b : List StatusEv) :
    statusRun st (a ++ b) = statusRun (statusRun st a) b :=
  List.foldl_append statusStep st a b

/-- A tick before the deadline of the single live task changes only the
clock (helper). -/
theorem statusTick_single (msg : Option String) (ct : Option Nat)
    (i d ni m c : Nat) (h : m + 1 < d) :
    statusTick ⟨msg, ct, [(i, d)], ni, m, c⟩ = ⟨msg, ct, [(i, d)], ni, m + 1, c⟩ := by
  have h1 : decide (d ≤ m + 1) = false := by simp; omega
  have h2 : decide (m + 1 < d) = true := by simp [h]
  simp only [statusTick, List.filter_cons, List.filter_nil]
  simp [h1, h2]

/-- A tick reaching the deadline of the single live task fires it: the
message is cleared, the task leaves the pool, the clear counter steps
(helper). -/
theorem statusTick_fire (msg : Option String) (ct : Option Nat)
    (i d ni m c : Nat) (h : d ≤ m + 1) :
    statusTick ⟨msg, ct, [(i, d)], ni, m, c⟩ = ⟨none, ct, [], ni, m + 1, c + 1⟩ := by
  have h1 : decide (d ≤ m + 1) = true := by simp [h]
  have h2 : decide (m + 1 < d) = false := by simp; omega
  simp only [statusTick, List.filter_cons, List.filter_nil]
  simp [h1, h2]

/-- A tick with no live task changes only the clock (helper). -/
theorem statusTick_empty (msg : Option String) (ct : Option Nat) (ni m c : Nat) :
    statusTick ⟨msg, ct, [], ni, m, c⟩ = ⟨msg, ct, [], ni, m + 1, c⟩ := rfl

/-- Ticks strictly before the deadline only advance the clock (helper). -/
theorem statusTicks_no_fire (msg : Option String) (ct : Option Nat)
    (i d ni c : Nat) :
    ∀ n m, m + n < d →
      statusRun ⟨msg, ct, [(i, d)], ni, m, c⟩ (List.replicate n .tick) =
        ⟨msg, ct, [(i, d)], ni, m + n, c⟩ := by
  intro n
  induction n with
  | zero => intro m h; rfl
  | succ k ih =>
    intro m h
    rw [List.replicate_succ]
    show statusRun (statusStep _ .tick) (List.replicate k .tick) = _
    rw [show statusStep (⟨msg, ct, [(i, d)], ni, m, c⟩ : StatusState) .tick =
      statusTick ⟨msg, ct, [(i, d)], ni, m, c⟩ from rfl]
    rw [statusTick_single msg ct i d ni m c (by omega)]
    rw [ih (m + 1) (by omega)]
    congr 1
    omega

/-- Ticks with no live task only advance the clock: after the expiry task
has fired once, nothing clears the message again (helper). -/
theorem statusTicks_empty (msg : Option String) (ct : Option Nat) (ni c : Nat) :
    ∀ n m, statusRun ⟨msg, ct, [], ni, m, c⟩ (List.replicate n .tick) =
      ⟨msg, ct, [], ni, m + n, c⟩ := by
  intro n
  induction n with
  | zero => intro m; rfl
  | succ k ih =>
    intro m
    rw [List.replicate_succ]
    show statusRun (statusStep _ .tick) (List.replicate k .tick) = _
    rw [show statusStep (⟨msg, ct, [], ni, m, c⟩ : StatusState) .tick =
      statusTick ⟨msg, ct, [], ni, m, c⟩ from rfl]
    rw [statusTick_empty]
    rw [ih (m + 1)]
    congr 1
    omega

/-- C3: after any sequence of set-status-message calls and clock ticks, at
most one expiry task is pending; and in the two-calls-in-quick-succession
scenario (second call `k ≤ 3` ticks after the first, so before the first
expiry), the message is cleared exactly once — `clears` is 1 — and
exactly when 4 time-units have elapsed since the second call, at which
point the second message (not the first) is removed. -/
theorem status_expiry_single_pending (evs : List StatusEv) (s1 s2 : String)
    (k n : Nat) (hk : k ≤ 3) :
    (statusRun statusInit evs).live.length ≤ 1 ∧
    statusRun statusInit
        ([.set s1] ++ List.replicate k .tick ++ [.set s2] ++ List.replicate n .tick) =
      ⟨if n < 4 then some s2 else none, some 1,
       if n < 4 then [(1, k + 4)] else [], 2, k + n, if n < 4 then 0 else 1⟩ := by
  constructor
  · exact (statusInv_run evs statusInit (by constructor <;> simp [statusInit])).1
  · rw [statusRun_append, statusRun_append, statusRun_append]
    rw [show statusRun statusInit [.set s1] = ⟨some s1, some 0, [(0, 4)], 1, 0, 0⟩ from rfl]
    rw [statusTicks_no_fire (some s1) (some 0) 0 4 1 0 k 0 (by omega)]
    rw [show (0 + k) = k from by omega]
    rw [show statusRun ⟨some s1, some 0, [(0, 4)], 1, k, 0⟩ [.set s2] =
        ⟨some s2, some 1, [(1, k + 4)], 2, k, 0⟩ from rfl]
    by_cases hn : n < 4
    · rw [statusTicks_no_fire (some s2) (some 1) 1 (k + 4) 2 0 n k (by omega)]
      rw [if_pos hn, if_pos hn, if_pos hn]
    · obtain ⟨j, rfl⟩ : ∃ j, n = 4 + j := ⟨n - 4, by omega⟩
      rw [show (4 + j) = 3 + 1 + j from by omega]
      rw [List.replicate_add, List.replicate_add, statusRun_append, statusRun_append]
      rw [statusTicks_no_fire (some s2) (some 1) 1 (k + 4) 2 0 3 k (by omega)]
      rw [show statusRun ⟨some s2, some 1, [(1, k + 4)], 2, k + 3, 0⟩
          (List.replicate 1 .tick) =
          statusTick ⟨some s2, some 1, [(1, k + 4)], 2, k + 3, 0⟩ from rfl]
      rw [statusTick_fire (some s2) (some 1) 1 (k + 4) 2 (k + 3) 0 (by omega)]
      rw [show (0 + 1) = 1 from rfl]
      rw [statusTicks_empty none (some 1) 2 1 j (k + 3 + 1)]
      rw [if_neg hn, if_neg hn, if_neg hn]
      congr 1
      omega

/-- C3 witness: a concrete run (second call 2 ticks after the first, then
6 ticks) evaluated: one message clear, happening 4 ticks after the second
call. -/
theorem status_expiry_single_pending_witness :
    (statusRun statusInit [.set "a", .tick, .set "b"]).live.length ≤ 1 ∧
    statusRun statusInit
        ([.set "x"] ++ List.replicate 2 .tick ++ [.set "y"] ++ List.replicate 6 .tick) =
      ⟨if 6 < 4 then some "y" else none, some 1,
       if 6 < 4 then [(1, 2 + 4)] else [], 2, 2 + 6, if 6 < 4 then 0 else 1⟩ :=
  ⟨(status_expiry_single_pending [.set "a", .tick, .set "b"] "x" "y" 2 6 (by decide)).1,
   (status_expiry_single_pending [.set "a", .tick, .set "b"] "x" "y" 2 6 (by decide)).2⟩

/-- One step preserves the in-flight pagination invariant (helper). -/
theorem pagInv_step (st : PagState) (e : PagEv) (h : pagInv st) :
    pagInv (pagStep st e) := by
  obtain ⟨hlen, hid⟩ := h
  cases e with
  | paginate b =>
    cases b with
    | false => exact ⟨hlen, hid⟩
    | true =>
      have hfilter : (match st.current with
          | some hdl => st.live.filter (fun i => i != hdl)
          | none => st.live) = [] := by
        cases hct : st.current with
        | none =>
          cases hlive : st.live with
          | nil => rfl
          | cons t ts =>
            have := hid t (by rw [hlive]; exact List.mem_cons_self t ts)
            rw [hct] at this
            cases this
        | some hdl =>
          rw [List.filter_eq_nil_iff]
          intro t ht
          have := hid t ht
          rw [hct] at this
          simp_all
      constructor
      · show ((match st.current with
          | some hdl => st.live.filter (fun i => i != hdl)
          | none => st.live) ++ [st.nextId]).length ≤ 1
        rw [hfilter]
        simp
      · show ∀ i ∈ (match st.current with
          | some hdl => st.live.filter (fun i => i != hdl)
          | none => st.live) ++ [st.nextId], some st.nextId = some i
        rw [hfilter]
        simp
  | complete id r =>
    simp only [pagStep]
    split
    · constructor
      · exact le_trans (List.length_filter_le _ _) hlen
      · intro i hi
        exact hid i (List.mem_of_mem_filter hi)
    · exact ⟨hlen, hid⟩

/-- The invariant holds along any run from a state satisfying it
(helper). -/
theorem pagInv_run (evs : List PagEv) :
    ∀ st, pagInv st → pagInv (pagRun st evs) := by
  induction evs with
  | nil => exact fun st h => h
  | cons e es ih => exact fun st h => ih _ (pagInv_step st e h)

/-- Every recorded pagination request asks for a batch of 20 events
(helper). -/
theorem pagRequests_inv (evs : List PagEv) :
    ∀ st : PagState, (∀ q ∈ st.requests, q.2 = 20) →
      ∀ q ∈ (pagRun st evs).requests, q.2 = 20 := by
  induction evs with
  | nil => exact fun st h => h
  | cons ev es ih =>
    intro st h
    apply ih
    cases ev with
    | paginate b =>
      cases b with
      | false => exact h
      | true =>
        intro q hq
        simp only [pagStep] at hq
        rcases List.mem_append.mp hq with hq | hq
        · exact h q hq
        · simp at hq
          rw [hq]
    | complete cid cr =>
      simp only [pagStep]
      split
      · exact h
      · exact h

/-- C4: at most one backward-pagination task is in flight; any in-flight
task is the one whose handle is stored in `current_pagination` — the most
recently started one, since `back_paginate` always stores the task it just
spawned; and a completion event that actually extends the completed list
(i.e., the completing task had not been aborted) can only come from that
most recently started task. -/
theorem pagination_single_inflight (evs : List PagEv) :
    (pagRun pagInit evs).live.length ≤ 1 ∧
    (∀ i ∈ (pagRun pagInit evs).live, (pagRun pagInit evs).current = some i) ∧
    (∀ (id : Nat) (r : Except String Unit),
      (pagStep (pagRun pagInit evs) (.complete id r)).completed ≠
        (pagRun pagInit evs).completed →
      (pagRun pagInit evs).current = some id) := by
  have hinv : pagInv (pagRun pagInit evs) :=
    pagInv_run evs pagInit ⟨by simp [pagInit], by simp [pagInit]⟩
  refine ⟨hinv.1, hinv.2, ?_⟩
  intro id r hne
  by_cases hmem : id ∈ (pagRun pagInit evs).live
  · exact hinv.2 id hmem
  · exfalso
    apply hne
    simp only [pagStep, if_neg hmem]

/-- C4 witness: two pagination requests in a row; the second task (id 1)
is the only live one, is the current one, and is the one a completion
event touches. -/
theorem pagination_single_inflight_witness :
    (pagRun pagInit [.paginate true, .paginate true]).live.length ≤ 1 ∧
    (pagRun pagInit [.paginate true, .paginate true]).current = some 1 ∧
    (pagRun pagInit [.paginate true, .paginate true]).current = some 1 :=
  ⟨(pagination_single_inflight [.paginate true, .paginate true]).1,
   (pagination_single_inflight [.paginate true, .paginate true]).2.1 1 (by decide),
   (pagination_single_inflight [.paginate true, .paginate true]).2.2 1 (.ok ()) (by decide)⟩

/-- C9: the completion of a spawned pagination task — success or failure —
never changes the status message; a failing task only appends the logged
error line; and every spawned request asks the backend for a fixed-size
backward page of 20 events. -/
theorem pagination_failure_logged_only (st : PagState) (id : Nat) (e : String)
    (r : Except String Unit) (evs : List PagEv) :
    (pagStep st (.complete id r)).status = st.status ∧
    (id ∈ st.live →
      (pagStep st (.complete id (.error e))).logs =
        st.logs ++ ["Error during backpagination: " ++ e]) ∧
    (∀ q ∈ (pagRun pagInit evs).requests, q.2 = 20) := by
  refine ⟨?_, ?_, ?_⟩
  · simp only [pagStep]
    split <;> rfl
  · intro hmem
    simp only [pagStep, if_pos hmem]
  · exact pagRequests_inv evs pagInit (by simp [pagInit])

/-- C9 witness: a failing completion on a concrete state, evaluated. -/
theorem pagination_failure_logged_only_witness :
    (pagStep ⟨some 0, [0], [(0, 20)], [], [], none, 1⟩
        (.complete 0 (.error "boom"))).status =
      (⟨some 0, [0], [(0, 20)], [], [], none, 1⟩ : PagState).status ∧
    (pagStep ⟨some 0, [0], [(0, 20)], [], [], none, 1⟩
        (.complete 0 (.error "boom"))).logs =
      (⟨some 0, [0], [(0, 20)], [], [], none, 1⟩ : PagState).logs ++
        ["Error during backpagination: " ++ "boom"] ∧
    ((0 : Nat), (20 : Nat)).2 = 20 :=
  ⟨(pagination_failure_logged_only ⟨some 0, [0], [(0, 20)], [], [], none, 1⟩
      0 "boom" (.error "boom") [.paginate true]).1,
   (pagination_failure_logged_only ⟨some 0, [0], [(0, 20)], [], [], none, 1⟩
      0 "boom" (.error "boom") [.paginate true]).2.1 (by decide),
   (pagination_failure_logged_only ⟨some 0, [0], [(0, 20)], [], [], none, 1⟩
      0 "boom" (.error "boom") [.paginate true]).2.2 (0, 20) (by decide)⟩

/-- C5 counterexample: with a resolved room whose timeline is missing, the
code `unwrap`s the timeline and panics (main.rs 330) instead of producing
the status-message no-op the claim promises for that case. -/
theorem mark_as_read_missing_timeline_panics :
    mark_as_read (some none) (Except.ok true) = MarkResult.panicked ∧
    MarkResult.panicked ≠ MarkResult.statusOnly "missing room or nothing to show" :=
  ⟨rfl, by decide⟩

/-- C5 (amended): `mark_as_read` is a status-message no-op exactly when the
selected room fails to resolve (no selection, index out of bounds, or room
absent from the UI-room registry); if the room resolves but its timeline is
missing the code panics on the `unwrap` (a case the registry construction
makes unreachable, since only rooms with a successfully initialized
timeline are registered); otherwise it sends the read-receipt request and
reports its success or failure as a status message. -/
theorem mark_as_read_cases (receipt : Except String Bool) (did : Bool) (e : String) :
    mark_as_read none receipt = .statusOnly "missing room or nothing to show" ∧
    mark_as_read (some none) receipt = .panicked ∧
    mark_as_read (some (some ())) (.ok did) =
      .sentReceipt ("did " ++ (if did then "" else "not ") ++ "send a read receipt!") ∧
    mark_as_read (some (some ())) (.error e) =
      .sentReceipt ("error when marking a room as read: " ++ e) :=
  ⟨rfl, rfl, rfl, rfl⟩

/-- The reverse scan returns the identifier of the item at the greatest
index whose content is a message (helper). -/
theorem findSome?_reverse_latest (pre post : List TLItem) (id : Nat)
    (hpost : ∀ it ∈ post, msgId it = none) :
    (pre ++ TLItem.message id :: post).reverse.findSome? msgId = some id := by
  rw [List.reverse_append, List.reverse_cons, List.findSome?_append,
    List.findSome?_append]
  have h1 : post.reverse.findSome? msgId = none := by
    rw [List.findSome?_eq_none_iff]
    intro x hx
    exact hpost x (List.mem_reverse.mp hx)
  simp [h1, msgId]

/-- C6: toggling a reaction targets the most recent message-type event of
the timeline (the scan is in reverse order, so any later non-message items
are skipped); with no message-type event at all it reports "no item to
react to" without any backend call (the `statusOnly` result); and a
missing timeline entry is reported with a distinct message. -/
theorem toggle_reaction_latest_message (pre post items : List TLItem)
    (id : Nat) (r : Except String Unit) (e : String)
    (hpost : ∀ it ∈ post, msgId it = none)
    (hnone : ∀ it ∈ items, msgId it = none) :
    toggle_reaction_to_latest_msg (some (pre ++ TLItem.message id :: post)) (.ok ()) =
      .reacted id "reaction sent!" ∧
    toggle_reaction_to_latest_msg (some (pre ++ TLItem.message id :: post)) (.error e) =
      .reacted id ("error when reacting: " ++ e) ∧
    toggle_reaction_to_latest_msg (some items) r = .statusOnly "no item to react to" ∧
    toggle_reaction_to_latest_msg none r = .statusOnly "missing timeline for room" ∧
    "missing timeline for room" ≠ "no item to react to" := by
  refine ⟨?_, ?_, ?_, rfl, by decide⟩
  · simp only [toggle_reaction_to_latest_msg,
      findSome?_reverse_latest pre post id hpost]
  · simp only [toggle_reaction_to_latest_msg,
      findSome?_reverse_latest pre post id hpost]
  · have h1 : items.reverse.findSome? msgId = none := by
      rw [List.findSome?_eq_none_iff]
      intro x hx
      exact hnone x (List.mem_reverse.mp hx)
    simp only [toggle_reaction_to_latest_msg, h1]

/-- C6 witness: a concrete timeline whose latest message-type event (id 7)
sits before trailing virtual/non-message items, and a concrete
virtual-only timeline. -/
theorem toggle_reaction_latest_message_witness :
    toggle_reaction_to_latest_msg
        (some ([.virt, .otherEvent 1] ++ TLItem.message 7 :: [.otherEvent 3, .virt]))
        (.ok ()) = .reacted 7 "reaction sent!" ∧
    toggle_reaction_to_latest_msg
        (some ([.virt, .otherEvent 1] ++ TLItem.message 7 :: [.otherEvent 3, .virt]))
        (.error "err") = .reacted 7 ("error when reacting: " ++ "err") ∧
    toggle_reaction_to_latest_msg (some [.virt, .virt]) (.ok ()) =
      .statusOnly "no item to react to" ∧
    toggle_reaction_to_latest_msg none (.ok ()) =
      .statusOnly "missing timeline for room" ∧
    "missing timeline for room" ≠ "no item to react to" :=
  toggle_reaction_latest_message [.virt, .otherEvent 1] [.otherEvent 3, .virt]
    [.virt, .virt] 7 (.ok ()) "err" (by decide) (by decide)

/-- Pointwise unfolding of one insertion step (helper). -/
theorem newEntriesStep_apply (reg acc : Nat → Option Nat) (k : Nat)
    (v : Option Nat) (id : Nat) :
    newEntriesStep reg acc (k, v) id =
      if (reg k).isNone then
        match v with
        | some e => if id = k then some e else acc id
        | none => acc id
      else acc id := by
  unfold newEntriesStep
  split
  · cases v <;> rfl
  · rfl

/-- A room already registered before the batch never gets a new-map entry
(helper). -/
theorem newEntries_registered (reg : Nat → Option Nat)
    (batch : List (Nat × Option Nat)) :
    ∀ (acc : Nat → Option Nat) (id : Nat), (reg id).isSome → acc id = none →
      (batch.foldl (newEntriesStep reg) acc) id = none := by
  induction batch with
  | nil => exact fun acc id _ hacc => hacc
  | cons p ps ih =>
    intro acc id h hacc
    apply ih _ id h
    obtain ⟨k, v⟩ := p
    rw [newEntriesStep_apply]
    split
    · cases v with
      | none => exact hacc
      | some e =>
        by_cases hip : id = k
        · exfalso
          subst hip
          simp_all
        · simp [hip, hacc]
    · exact hacc

/-- A room whose every occurrence in the batch failed initialization gets
no new-map entry (helper). -/
theorem newEntries_failed (reg : Nat → Option Nat)
    (batch : List (Nat × Option Nat)) :
    ∀ (acc : Nat → Option Nat) (id : Nat), acc id = none →
      (∀ p ∈ batch, p.1 = id → p.2 = none) →
      (batch.foldl (newEntriesStep reg) acc) id = none := by
  induction batch with
  | nil => exact fun acc id hacc _ => hacc
  | cons p ps ih =>
    intro acc id hacc hall
    apply ih _ id _ (fun q hq => hall q (List.mem_cons_of_mem p hq))
    obtain ⟨k, v⟩ := p
    rw [newEntriesStep_apply]
    split
    · cases v with
      | none => exact hacc
      | some e =>
        by_cases hip : id = k
        · exfalso
          have := hall (k, some e) (List.mem_cons_self _ ps) hip.symm
          cases this
        · simp [hip, hacc]
    · exact hacc

/-- An accumulated new-map entry survives the rest of the fold
(helper). -/
theorem newEntries_mono (reg : Nat → Option Nat)
    (batch : List (Nat × Option Nat)) :
    ∀ (acc : Nat → Option Nat) (id : Nat), (acc id).isSome →
      ((batch.foldl (newEntriesStep reg) acc) id).isSome := by
  induction batch with
  | nil => exact fun acc id h => h
  | cons p ps ih =>
    intro acc id h
    apply ih
    obtain ⟨k, v⟩ := p
    rw [newEntriesStep_apply]
    split
    · cases v with
      | none => exact h
      | some e =>
        by_cases hip : id = k
        · simp [hip]
        · simp [hip, h]
    · exact h

/-- A successful initialization of an unregistered room yields a new-map
entry (helper). -/
theorem newEntries_success (reg : Nat → Option Nat)
    (batch : List (Nat × Option Nat)) :
    ∀ (acc : Nat → Option Nat) (id e : Nat), reg id = none →
      (id, some e) ∈ batch →
      ((batch.foldl (newEntriesStep reg) acc) id).isSome := by
  induction batch with
  | nil =>
    intro acc id e _ hmem
    cases hmem
  | cons p ps ih =>
    intro acc id e hreg hmem
    rcases List.mem_cons.mp hmem with hp | hp
    · rw [List.foldl_cons]
      apply newEntries_mono
      rw [← hp, newEntriesStep_apply]
      rw [if_pos (by rw [hreg]; rfl)]
      simp
    · exact ih _ id e hreg hp

/-- C8: over one reconciliation batch, a room already registered in the
Timeline Registry keeps exactly its entry (never replaced); a room absent
from the registry whose every initialization attempt in the batch fails
stays unregistered — so it is seen as "new" again on the next batch; and a
room absent from the registry with a successful initialization in the
batch ends up registered. -/
theorem timeline_registry_once (reg : Nat → Option Nat)
    (batch : List (Nat × Option Nat)) (id : Nat) (e : Nat) :
    (reg id = some e → processBatch reg batch id = some e) ∧
    (reg id = none → (∀ p ∈ batch, p.1 = id → p.2 = none) →
      processBatch reg batch id = none) ∧
    (reg id = none → (id, some e) ∈ batch →
      (processBatch reg batch id).isSome) := by
  refine ⟨?_, ?_, ?_⟩
  · intro h
    unfold processBatch
    rw [show buildNewEntries reg batch id = none from
      newEntries_registered reg batch _ id (by rw [h]; rfl) rfl]
    exact h
  · intro h hall
    unfold processBatch
    rw [show buildNewEntries reg batch id = none from
      newEntries_failed reg batch _ id rfl hall]
    exact h
  · intro h hmem
    unfold processBatch
    have hs := newEntries_success reg batch (fun _ => none) id e h hmem
    cases hb : buildNewEntries reg batch id with
    | none =>
      exfalso
      unfold buildNewEntries at hb
      rw [hb] at hs
      cases hs
    | some v => simp

/-- C8 witness: a concrete registry (room 1 registered with entry 10) and
batch (room 1 re-listed, room 2 failing, room 3 succeeding), evaluated. -/
theorem timeline_registry_once_witness :
    processBatch (fun id => if id = 1 then some 10 else none)
        [(1, some 99), (2, none), (3, some 7)] 1 = some 10 ∧
    processBatch (fun id => if id = 1 then some 10 else none)
        [(1, some 99), (2, none), (3, some 7)] 2 = none ∧
    (processBatch (fun id => if id = 1 then some 10 else none)
        [(1, some 99), (2, none), (3, some 7)] 3).isSome :=
  ⟨(timeline_registry_once (fun id => if id = 1 then some 10 else none)
      [(1, some 99), (2, none), (3, some 7)] 1 10).1 rfl,
   (timeline_registry_once (fun id => if id = 1 then some 10 else none)
      [(1, some 99), (2, none), (3, some 7)] 2 10).2.1 rfl (by decide),
   (timeline_registry_once (fun id => if id = 1 then some 10 else none)
      [(1, some 99), (2, none), (3, some 7)] 3 7).2.2 rfl (by decide)⟩

end Multiverse
